import Mathlib

/-!
Verification of the WECC hydrogen-demand model (nkong1/wecc-h2-demand).

This file gives a shallow embedding, over exact rational arithmetic, of the
core allocation and disaggregation routines of the repository:

* transport/build_transport_profile.py : disaggregate_annual_to_hourly
* transport/transport_h2.py            : model_transport_demand (per-state step),
                                         disaggregate_by_load_zone (per-state step),
                                         build_hydrogen_demand_grid
* transport/param_projections.py       : constants and projections
* industry/industry_h2.py              : calc_discrepancies (per-NAICS and per-sector),
                                         model_one_year (discrepancy-correction step),
                                         calc_epa_ghgrp_fuel_consumption (per-unit fuel loop)
* combine_results.py                   : combine_profiles, combine_demand_grids

Floating-point values are modelled as rationals; the numpy float NaN that
arises from adding a missing value is modelled by Option (none = NaN/missing),
and a Python KeyError that no handler catches is modelled by Option none at
the function level.  Python int() truncation toward zero is Int.tdiv.
-/

namespace WeccH2

/- ================================================================
   Calendar model (pandas date_range / dt.weekday, Monday = 0).
   ================================================================ -/

/-- Gregorian leap-year test. -/
def isLeap (y : ℕ) : Bool := (y % 4 == 0 && y % 100 != 0) || y % 400 == 0

def daysInYear (y : ℕ) : ℕ := if isLeap y then 366 else 365

/-- Number of rows produced by date_range(Jan 1 00:00, Dec 31 23:00, freq h). -/
def hoursInYear (y : ℕ) : ℕ := daysInYear y * 24

/-- Weekday of January 1 of year y in the pandas convention (Monday = 0),
proleptic Gregorian: day counting from 0001-01-01, which is a Monday. -/
def jan1Weekday (y : ℕ) : ℕ :=
  (365 * (y - 1) + (y - 1) / 4 - (y - 1) / 100 + (y - 1) / 400) % 7

/-- pandas dt.weekday of hour h (0-based) of year y: Monday = 0, Sunday = 6. -/
def hourWeekday (y h : ℕ) : ℕ := (jan1Weekday y + h / 24) % 7

/-- Source line: sunday_start_weekday = (weekday + 1) % 7. -/
def sundayStartWeekday (y h : ℕ) : ℕ := (hourWeekday y h + 1) % 7

/-- Source line: hour_of_week = sunday_start_weekday * 24 + hour. -/
def hourOfWeek (y h : ℕ) : ℕ := sundayStartWeekday y h * 24 + h % 24

/-- Source line: week_index = np.clip(days_since_start // 7, 0, 52).
The lower clip at 0 is a no-op on naturals. -/
def weekIndex (h : ℕ) : ℕ := min (h / 24 / 7) 52

/- ================================================================
   disaggregate_annual_to_hourly (build_transport_profile.py).
   ================================================================ -/

/-- Source: profile / profile.sum(). -/
def normalizeProfile (p : List ℚ) : List ℚ := p.map (fun x => x / p.sum)

/-- Source: combined_shape = hourly_shape * weekly_shape, where the factors are
the normalized profiles indexed at hour_of_week and week_index. -/
def combinedShape (wk seas : List ℚ) (y h : ℕ) : ℚ :=
  (normalizeProfile wk).getD (hourOfWeek y h) 0 *
    (normalizeProfile seas).getD (weekIndex h) 0

/-- Source: df combined_shape column summed over the year. -/
def combinedShapeSum (wk seas : List ℚ) (y : ℕ) : ℚ :=
  ∑ h ∈ Finset.range (hoursInYear y), combinedShape wk seas y h

/-- Source: hourly_value = combined_shape * (annual_total / combined_shape.sum()). -/
def hourlyValue (annualTotal : ℚ) (wk seas : List ℚ) (y h : ℕ) : ℚ :=
  combinedShape wk seas y h * (annualTotal / combinedShapeSum wk seas y)

/-- The hourly_value column of the DataFrame returned by
disaggregate_annual_to_hourly, one entry per hour of the year. -/
def disaggregate_annual_to_hourly (annualTotal : ℚ) (wk seas : List ℚ) (y : ℕ) :
    List ℚ :=
  (List.range (hoursInYear y)).map (hourlyValue annualTotal wk seas y)

/-- A 168-hour weekly shape whose only non-zero weight sits at index 0
(Sunday 00:00). -/
def wkSundayHour0 : List ℚ := 1 :: List.replicate 167 0

/-- A 53-week seasonal shape whose only non-zero weight sits at index 52. -/
def seasLastWeekOnly : List ℚ := List.replicate 52 0 ++ [1]

/-- A uniform 53-week seasonal shape. -/
def seasUniform53 : List ℚ := List.replicate 53 1

/-- A uniform 168-hour weekly shape. -/
def wkUniform168 : List ℚ := List.replicate 168 1

/- ================================================================
   model_transport_demand, per-state step (transport_h2.py), and
   param_projections.py.
   ================================================================ -/

def GASOLINE_TO_H2 : ℚ := 1

def DIESEL_TO_H2 : ℚ := 1 / 0.9

def DIESEL_FROM_ONROAD_TRANSPORT : ℚ := 0.8658

def GASOLINE_FROM_ONROAD_TRANSPORT : ℚ := 0.9899

/-- LD_FCEV_to_ICEV_efficiency from param_projections.py. -/
def LD_FCEV_to_ICEV_efficiency (year : ℕ) : ℚ :=
  ((((138:ℚ) + 95) / 2) / (((40:ℚ) + 30) / 2) - (((83:ℚ) + 60) / 2) / (((33:ℚ) + 23) / 2)) / 30
      * ((year : ℚ) - 2020)
    + (((83:ℚ) + 60) / 2) / (((33:ℚ) + 23) / 2)

/-- HD_FCEV_to_ICEV_efficiency from param_projections.py. -/
def HD_FCEV_to_ICEV_efficiency (year : ℕ) : ℚ :=
  ((11.2 : ℚ) / 7.7 - (8.5 : ℚ) / 7.6) / 30 * ((year : ℚ) - 2020) + (8.5 : ℚ) / 7.6

/-- Data list of rel_change_LD_fuel_consumption, indexed by year - 2023. -/
def ldFuelChangeByYear : List ℚ :=
  [0, 0.044296462, 0.045407622, 0.03879188, 0.026124817, 0.009437798,
   -0.011174183, -0.036683746, -0.06214544, -0.092381316, -0.123083584,
   -0.152594123, -0.182237921, -0.213101243, -0.243269246, -0.270902176,
   -0.297043504, -0.320372834, -0.341785382, -0.362760544, -0.379842021,
   -0.396697179, -0.410141974, -0.423007724, -0.433134651, -0.444919444,
   -0.452629225, -0.458355589]

/-- Data list of rel_change_HD_fuel_consumption, indexed by year - 2023. -/
def hdFuelChangeByYear : List ℚ :=
  [0, 0.0682, 0.0726, 0.0682, 0.0586,
   0.0449, 0.0292, 0.0108, -0.0146, -0.0493,
   -0.0851, -0.1160, -0.1447, -0.1703, -0.1930,
   -0.2135, -0.2323, -0.2492, -0.2654, -0.2793,
   -0.2919, -0.3032, -0.3124, -0.3203, -0.3265,
   -0.3311, -0.3341, -0.3368]

def rel_change_LD_fuel_consumption (year : ℕ) : ℚ :=
  ldFuelChangeByYear.getD (year - 2023) 0

def rel_change_HD_fuel_consumption (year : ℕ) : ℚ :=
  hdFuelChangeByYear.getD (year - 2023) 0

/-- The six assumptions returned by get_transport_parameters, in order. -/
structure TransportParams where
  ldEfficiency : ℚ
  hdEfficiency : ℚ
  relChangeLD : ℚ
  relChangeHD : ℚ
  dieselOnroad : ℚ
  gasolineOnroad : ℚ

def get_transport_parameters (year : ℕ) : TransportParams :=
  { ldEfficiency := LD_FCEV_to_ICEV_efficiency year
    hdEfficiency := HD_FCEV_to_ICEV_efficiency year
    relChangeLD := rel_change_LD_fuel_consumption year
    relChangeHD := rel_change_HD_fuel_consumption year
    dieselOnroad := DIESEL_FROM_ONROAD_TRANSPORT
    gasolineOnroad := GASOLINE_FROM_ONROAD_TRANSPORT }

/-- The per-state body of the model_transport_demand loop (transport_h2.py,
lines 90-119): returns (ld_h2_demand, hd_h2_demand) for one state.  The
penetrations are already divided by 100.  Note that the source multiplies
BOTH reference fuel quantities by GASOLINE_FROM_ONROAD_TRANSPORT
(lines 100-101); the diesel on-road share is retrieved but never used. -/
def stateH2Demand (p : TransportParams)
    (ldPenetration hdPenetration gasConsumptionKBarrels dieselConsumptionKBarrels : ℚ) :
    ℚ × ℚ :=
  let refGasGallons := gasConsumptionKBarrels * 1000 * 42
  let refDieselGallons := dieselConsumptionKBarrels * 1000 * 42
  let refGasGallons2 := refGasGallons * p.gasolineOnroad
  let refDieselGallons2 := refDieselGallons * p.gasolineOnroad
  let gasGallons := refGasGallons2 * (1 + p.relChangeLD)
  let dieselGallons := refDieselGallons2 * (1 + p.relChangeHD)
  let gasOffsetGallons := gasGallons * ldPenetration
  let dieselOffsetGallons := dieselGallons * hdPenetration
  (gasOffsetGallons * GASOLINE_TO_H2 / p.ldEfficiency,
   dieselOffsetGallons * DIESEL_TO_H2 / p.hdEfficiency)

/- ================================================================
   disaggregate_by_load_zone, per-state step, and
   build_hydrogen_demand_grid (transport_h2.py).
   ================================================================ -/

def zoneXStr : String := "ZoneX"

def zoneYStr : String := "ZoneY"

/-- One row of a per-state VMT file: load zone name, HD VMT, LD VMT. -/
structure VmtRow where
  zone : String
  hdVMT : ℚ
  ldVMT : ℚ

/-- Source: state_df LD_h2_demand = ld_vmt_col / state_ld_vmt * state_ld_h2_demand.
The divisor is the state total read from state_VMT_summary.csv. -/
def ldAllocation (stateLdVMT stateLdH2 : ℚ) (r : VmtRow) : ℚ :=
  r.ldVMT / stateLdVMT * stateLdH2

def hdAllocation (stateHdVMT stateHdH2 : ℚ) (r : VmtRow) : ℚ :=
  r.hdVMT / stateHdVMT * stateHdH2

/-- One 5x5 km cell of the WECC VMT grid. -/
structure GridCell where
  ldVMT : ℚ
  hdVMT : ℚ

def gridLdTotal (grid : List GridCell) : ℚ := (grid.map (fun c => c.ldVMT)).sum

def gridHdTotal (grid : List GridCell) : ℚ := (grid.map (fun c => c.hdVMT)).sum

/-- build_hydrogen_demand_grid: each cell receives
wecc_demand * cell_VMT / wecc_VMT_total, for LD and HD. -/
def build_hydrogen_demand_grid (weccLdH2 weccHdH2 : ℚ) (grid : List GridCell) :
    List (ℚ × ℚ) :=
  grid.map (fun c =>
    (weccLdH2 * c.ldVMT / gridLdTotal grid, weccHdH2 * c.hdVMT / gridHdTotal grid))

/- ================================================================
   combine_results.py.
   ================================================================ -/

/-- combine_profiles: the loop runs over the TRANSPORT zone files only; when the
matching industry file exists the demands are added, otherwise the transport
values are copied.  Industry files with no transport counterpart are never
visited. -/
def combine_profiles (transport industry : List (String × ℚ)) : List (String × ℚ) :=
  transport.map (fun p =>
    match industry.lookup p.1 with
    | some i => (p.1, p.2 + i)
    | none => (p.1, p.2))

/-- Pandas float addition where a missing (outer-join) side is NaN: adding NaN
to anything is NaN.  none models NaN/missing. -/
def nanAdd : Option ℚ → Option ℚ → Option ℚ
  | some a, some b => some (a + b)
  | _, _ => none

/-- Key set of an outer merge of the industry grid with the transport grid
(geometry keys modelled as naturals). -/
def outerKeys (ind tr : List (ℕ × ℚ)) : List ℕ :=
  ind.map Prod.fst ++
    (tr.map Prod.fst).filter (fun k => !((ind.map Prod.fst).contains k))

/-- combine_demand_grids: outer merge on geometry, then
total = total_industry + total_transport with NaN propagation. -/
def combine_demand_grids (ind tr : List (ℕ × ℚ)) : List (ℕ × Option ℚ) :=
  (outerKeys ind tr).map (fun k => (k, nanAdd (ind.lookup k) (tr.lookup k)))

/- ================================================================
   calc_discrepancies and the discrepancy-correction step of
   model_one_year (industry_h2.py).
   ================================================================ -/

/-- Python int() truncation toward zero of a rational. -/
def pyInt (q : ℚ) : ℤ := q.num.tdiv q.den

/-- One NAICS row used by calc_discrepancies: the GHGRP bottom-up total (mmBtu)
and the MECS value as stored in the csv (millions of mmBtu). -/
structure NaicsEntry where
  ghgrp : ℚ
  mecsRaw : ℚ

/-- Source line: discrepancy_mmbtu = int(mecs_fuel_total_mmbtu) - ghgrp_fuel_total_mmbtu. -/
def naicsDiscrepancy (e : NaicsEntry) : ℚ :=
  (pyInt (e.mecsRaw * 1000000) : ℚ) - e.ghgrp

/-- Per-NAICS mecs_to_ghgrp audit value; none models np.inf (ghgrp total 0).
It is written to the audit csv only. -/
def naicsAuditFactor (e : NaicsEntry) : Option ℚ :=
  if e.ghgrp = 0 then none else some (e.mecsRaw * 1000000 / e.ghgrp)

def sectorMecs (es : List NaicsEntry) : ℚ :=
  (es.map (fun e => e.mecsRaw * 1000000)).sum

def sectorGhgrp (es : List NaicsEntry) : ℚ :=
  (es.map (fun e => e.ghgrp)).sum

def sectorDiscrepancy (es : List NaicsEntry) : ℚ :=
  (es.map naicsDiscrepancy).sum

/-- Sector-level mecs_to_ghgrp scaling value (untruncated). -/
def sectorCorrectionFactor (es : List NaicsEntry) : ℚ :=
  sectorMecs es / sectorGhgrp es

/-- The per-sector branch of model_one_year step 3: if the (truncated)
discrepancy is negative, every facility record of the sector is scaled by the
sector mecs/ghgrp value; if it is positive, nExtra synthetic records of
discrepancy / nExtra each are injected; otherwise nothing happens.  Returns
(adjusted existing records, injected records). -/
def applyDiscrepancyCorrection (es : List NaicsEntry) (records : List ℚ)
    (nExtra : ℕ) : List ℚ × List ℚ :=
  if sectorDiscrepancy es < 0 then
    (records.map (fun r => r * sectorCorrectionFactor es), [])
  else if 0 < sectorDiscrepancy es then
    (records, List.replicate nExtra (sectorDiscrepancy es / (nExtra : ℚ)))
  else
    (records, [])

/- ================================================================
   calc_epa_ghgrp_fuel_consumption, per-unit fuel loop (industry_h2.py,
   lines 536-611).
   ================================================================ -/

/-- Does the pattern match a leading segment of the text? -/
def leadEq : List Char → List Char → Bool
  | [], _ => true
  | _ :: _, [] => false
  | p :: ps, c :: cs => p == c && leadEq ps cs

/-- Substring containment on character lists. -/
def hasSubList (pat : List Char) : List Char → Bool
  | [] => leadEq pat []
  | c :: cs => leadEq pat (c :: cs) || hasSubList pat cs

/-- The Python membership test pat in s on strings. -/
def pyContains (pat s : String) : Bool := hasSubList pat.toList s.toList

def biofuelsStr : String := "Biofuels"

/-- The running state of the per-unit fuel loop:
(consumes_biofuels, unit_fuels, emissions_factor_total).  One step per fuel
row.  A fuel with no EIA AEO category entry raises an uncaught KeyError on the
Biofuels membership test (modelled as none).  In the biofuel branch the source
sets consumes_biofuels = False (not True) and skips the fuel.  Otherwise the
fuel is appended to unit_fuels BEFORE the emissions-factor lookup, whose
failure is caught and only skips the factor accumulation. -/
def collectUnitFuels (aeoCat : String → Option String) (ef : String → Option ℚ) :
    List String → Bool × List String × ℚ → Option (Bool × List String × ℚ)
  | [], acc => some acc
  | f :: rest, acc =>
    match aeoCat f with
    | none => none
    | some cat =>
      if pyContains biofuelsStr cat then
        collectUnitFuels aeoCat ef rest (false, acc.2.1, acc.2.2)
      else
        match ef f with
        | some e => collectUnitFuels aeoCat ef rest (acc.1, acc.2.1 ++ [f], acc.2.2 + e)
        | none => collectUnitFuels aeoCat ef rest (acc.1, acc.2.1 ++ [f], acc.2.2)

/-- Is the fuel kept by the loop (it has a category that is not a biofuel)? -/
def keptFuel (aeoCat : String → Option String) (f : String) : Bool :=
  match aeoCat f with
  | some cat => !(pyContains biofuelsStr cat)
  | none => false

/-- The per-unit computation: average emissions factor over unit_fuels, unit
demand from CO2 emissions, the (dead) consumes_biofuels adjustment, then the
even split across unit_fuels.  Outer none = uncaught KeyError; inner none =
unit skipped because emissions_factor_total == 0; otherwise
(unit_fuels, fuel_demand_by_unit_fuel). -/
def processUnit (aeoCat : String → Option String) (ef : String → Option ℚ)
    (unitCO2 : ℚ) (fuels : List String) : Option (Option (List String × ℚ)) :=
  match collectUnitFuels aeoCat ef fuels (false, [], 0) with
  | none => none
  | some acc =>
    if acc.2.2 = 0 then some none
    else
      some (some (acc.2.1,
        (if acc.1 then
          unitCO2 * 1000 / (acc.2.2 / (acc.2.1.length : ℚ))
            * ((acc.2.1.length : ℚ) / ((acc.2.1.length : ℚ) + 1))
            * ((acc.2.1.length : ℚ) / ((acc.2.1.length : ℚ) + 1))
        else
          unitCO2 * 1000 / (acc.2.2 / (acc.2.1.length : ℚ))) / (acc.2.1.length : ℚ)))

def natGasStr : String := "Natural Gas"

def mysteryStr : String := "Mystery Fuel"

def woodStr : String := "Wood"

def dieselStr : String := "Diesel"

def natGasCat : String := "Nat Gas"

def woodCat : String := "Biofuels Blend"

def dieselCat : String := "Petroleum"

def otherCat : String := "Other"

/-- An example EIA AEO category table. -/
def aeoCatEx : String → Option String := fun f =>
  if f = woodStr then some woodCat
  else if f = natGasStr then some natGasCat
  else if f = dieselStr then some dieselCat
  else if f = mysteryStr then some otherCat
  else none

/-- An example emissions-factor table; the mystery fuel has no entry. -/
def efEx : String → Option ℚ := fun f =>
  if f = natGasStr then some 50
  else if f = dieselStr then some 70
  else none

/-- Discrepancy entry with top-down 800.7 mmBtu and bottom-up 800.5 mmBtu. -/
def overEntry : NaicsEntry := { ghgrp := 8005 / 10, mecsRaw := 8007 / 10000000 }

/-- Discrepancy entry with top-down 800 mmBtu and bottom-up 500 mmBtu. -/
def underEntry : NaicsEntry := { ghgrp := 500, mecsRaw := 8 / 10000 }

/-- Discrepancy entry with bottom-up total 0. -/
def zeroGhgrpEntry : NaicsEntry := { ghgrp := 0, mecsRaw := 2 }

/- ================================================================
   Helper lemmas.
   ================================================================ -/

theorem listSum_map_range (f : ℕ → ℚ) (n : ℕ) :
    ((List.range n).map f).sum = ∑ i ∈ Finset.range n, f i := by
  induction n with
  | zero => simp
  | succ n ih =>
    rw [List.range_succ, List.map_append, List.sum_append, Finset.sum_range_succ, ih]
    simp

theorem getD_map_div (p : List ℚ) (s : ℚ) (i : ℕ) :
    (p.map (fun x => x / s)).getD i 0 = p.getD i 0 / s := by
  simp only [List.getD_eq_getElem?_getD, List.getElem?_map]
  cases p[i]? <;> simp

theorem normalize_getD (p : List ℚ) (i : ℕ) :
    (normalizeProfile p).getD i 0 = p.getD i 0 / p.sum :=
  getD_map_div p p.sum i

theorem getD_replicate_zero (n i : ℕ) :
    (List.replicate n (0:ℚ)).getD i 0 = 0 := by
  simp only [List.getD_eq_getElem?_getD, List.getElem?_replicate]
  split <;> simp

theorem getD_replicate_of_lt (n i : ℕ) (c : ℚ) (h : i < n) :
    (List.replicate n c).getD i 0 = c := by
  simp [List.getD_eq_getElem?_getD, List.getElem?_replicate, h]

theorem wkSundayHour0_sum : wkSundayHour0.sum = 1 := by
  simp only [wkSundayHour0, List.sum_cons, List.sum_replicate, smul_zero, add_zero]

theorem wkSundayHour0_getD (i : ℕ) :
    wkSundayHour0.getD i 0 = if i = 0 then 1 else 0 := by
  cases i with
  | zero => rfl
  | succ j =>
    rw [show wkSundayHour0 = (1:ℚ) :: List.replicate 167 0 from rfl]
    simp only [List.getD_eq_getElem?_getD, List.getElem?_cons_succ, Nat.succ_ne_zero, if_false]
    simpa only [List.getD_eq_getElem?_getD] using getD_replicate_zero 167 j

theorem seasLastWeekOnly_sum : seasLastWeekOnly.sum = 1 := by
  simp only [seasLastWeekOnly, List.sum_append, List.sum_replicate, smul_zero,
    List.sum_cons, List.sum_nil, zero_add, add_zero]

theorem seasLastWeekOnly_getD_of_lt (i : ℕ) (h : i < 52) :
    seasLastWeekOnly.getD i 0 = 0 := by
  have h' : i < (List.replicate 52 (0:ℚ)).length := by simpa using h
  simp only [seasLastWeekOnly, List.getD_eq_getElem?_getD, List.getElem?_append, if_pos h',
    List.getElem?_replicate]
  simp [h]

theorem seasUniform53_sum : seasUniform53.sum = 53 := by
  simp only [seasUniform53, List.sum_replicate, nsmul_eq_mul, mul_one]
  norm_num

theorem wkUniform168_sum : wkUniform168.sum = 168 := by
  simp only [wkUniform168, List.sum_replicate, nsmul_eq_mul, mul_one]
  norm_num

theorem weekIndex_le (h : ℕ) : weekIndex h ≤ 52 := Nat.min_le_right _ _

theorem hourOfWeek_lt (y h : ℕ) : hourOfWeek y h < 168 := by
  unfold hourOfWeek sundayStartWeekday
  have h1 : (hourWeekday y h + 1) % 7 < 7 := Nat.mod_lt _ (by norm_num)
  have h2 : h % 24 < 24 := Nat.mod_lt _ (by norm_num)
  omega

/-- Core conservation identity of the final renormalization step: whenever the
combined-shape total is non-zero, the hourly values sum to the annual total. -/
theorem disaggregate_sum_eq (annualTotal : ℚ) (wk seas : List ℚ) (y : ℕ)
    (hS : combinedShapeSum wk seas y ≠ 0) :
    (disaggregate_annual_to_hourly annualTotal wk seas y).sum = annualTotal := by
  unfold disaggregate_annual_to_hourly
  rw [listSum_map_range]
  unfold hourlyValue
  rw [← Finset.sum_mul]
  have hsum : (∑ h ∈ Finset.range (hoursInYear y), combinedShape wk seas y h)
      = combinedShapeSum wk seas y := rfl
  rw [hsum, mul_comm, div_mul_cancel₀ _ hS]

/-- Decomposition of a sum over the hours of n days into days and hours. -/
theorem sum_hours_by_day (n : ℕ) (f : ℕ → ℚ) :
    ∑ h ∈ Finset.range (n * 24), f h
      = ∑ d ∈ Finset.range n, ∑ r ∈ Finset.range 24, f (d * 24 + r) := by
  induction n with
  | zero => simp
  | succ n ih =>
    rw [Nat.succ_mul, Finset.sum_range_add, ih,
      Finset.sum_range_succ (fun d => ∑ r ∈ Finset.range 24, f (d * 24 + r)) n]

theorem jan1Weekday_2025 : jan1Weekday 2025 = 2 := by decide

theorem jan1Weekday_2022 : jan1Weekday 2022 = 5 := by decide

theorem hoursInYear_2025 : hoursInYear 2025 = 8760 := by decide

theorem hoursInYear_2022 : hoursInYear 2022 = 8760 := by decide

/-- With the Sunday-00:00 indicator weekly shape and the uniform 53-week
seasonal shape, the combined shape of an hour is 1/53 exactly on the
Sunday-midnight hours and 0 elsewhere. -/
theorem combinedShape_sundayInd (h : ℕ) :
    combinedShape wkSundayHour0 seasUniform53 2025 h
      = if hourOfWeek 2025 h = 0 then 1 / 53 else 0 := by
  unfold combinedShape
  rw [normalize_getD, normalize_getD, wkSundayHour0_sum, seasUniform53_sum,
    wkSundayHour0_getD, show seasUniform53 = List.replicate 53 (1:ℚ) from rfl,
    getD_replicate_of_lt 53 _ 1 (lt_of_le_of_lt (weekIndex_le h) (by norm_num))]
  by_cases h0 : hourOfWeek 2025 h = 0 <;> simp [h0]

theorem sundayCount_2025 :
    (Finset.filter (fun d => d % 7 = 4) (Finset.range 365)).card = 52 := by decide

/-- The year 2025 has 52 Sunday-midnight hours, so the combined-shape total of
the Sunday indicator weekly shape with the uniform seasonal shape is 52/53. -/
theorem combinedShapeSum_sundayInd :
    combinedShapeSum wkSundayHour0 seasUniform53 2025 = 52 / 53 := by
  unfold combinedShapeSum
  rw [show hoursInYear 2025 = 365 * 24 from by decide, sum_hours_by_day]
  have hstep : ∀ d ∈ Finset.range 365,
      (∑ r ∈ Finset.range 24, combinedShape wkSundayHour0 seasUniform53 2025 (d * 24 + r))
        = if d % 7 = 4 then (1:ℚ) / 53 else 0 := by
    intro d _
    have hcongr : ∀ r ∈ Finset.range 24,
        combinedShape wkSundayHour0 seasUniform53 2025 (d * 24 + r)
          = if r = 0 ∧ d % 7 = 4 then (1:ℚ) / 53 else 0 := by
      intro r hr
      have hr24 : r < 24 := Finset.mem_range.mp hr
      rw [combinedShape_sundayInd]
      have hdiv : (d * 24 + r) / 24 = d := by omega
      have hmod : (d * 24 + r) % 24 = r := by omega
      have hcond : (hourOfWeek 2025 (d * 24 + r) = 0) ↔ (r = 0 ∧ d % 7 = 4) := by
        unfold hourOfWeek sundayStartWeekday hourWeekday
        rw [hdiv, hmod, jan1Weekday_2025]
        omega
      simp only [hcond]
    rw [Finset.sum_congr rfl hcongr]
    by_cases hd4 : d % 7 = 4
    · simp only [hd4, and_true]
      rw [Finset.sum_ite_eq' (Finset.range 24) 0 (fun _ => (1:ℚ) / 53)]
      simp
    · simp [hd4]
  rw [Finset.sum_congr rfl hstep, ← Finset.sum_filter, Finset.sum_const, sundayCount_2025,
    nsmul_eq_mul]
  norm_num

/-- In 2022, week index 52 covers only December 31, a Saturday, so the
Sunday-00:00 indicator weekly shape and the week-52 indicator seasonal shape
have disjoint support: every combined-shape value vanishes. -/
theorem combinedShape_c1cex (h : ℕ) (hh : h < 8760) :
    combinedShape wkSundayHour0 seasLastWeekOnly 2022 h = 0 := by
  unfold combinedShape
  rw [normalize_getD, normalize_getD, wkSundayHour0_sum, seasLastWeekOnly_sum,
    wkSundayHour0_getD]
  by_cases hw : h / 24 / 7 < 52
  · have hwi : weekIndex h = h / 24 / 7 := by unfold weekIndex; omega
    rw [hwi, seasLastWeekOnly_getD_of_lt _ hw]
    simp
  · have hday : h / 24 = 364 := by omega
    have hne : hourOfWeek 2022 h ≠ 0 := by
      unfold hourOfWeek sundayStartWeekday hourWeekday
      rw [hday, jan1Weekday_2022]
      omega
    simp [hne]

/-- With uniform weekly and seasonal shapes, every hour of 2025 has combined
shape (1/168) * (1/53), so the total is 8760 times that. -/
theorem combinedShapeSum_uniform :
    combinedShapeSum wkUniform168 seasUniform53 2025 = 8760 * (1 / 168 * (1 / 53)) := by
  unfold combinedShapeSum
  have hterm : ∀ h ∈ Finset.range (hoursInYear 2025),
      combinedShape wkUniform168 seasUniform53 2025 h = 1 / 168 * (1 / 53) := by
    intro h _
    unfold combinedShape
    rw [normalize_getD, normalize_getD, wkUniform168_sum, seasUniform53_sum,
      show wkUniform168 = List.replicate 168 (1:ℚ) from rfl,
      show seasUniform53 = List.replicate 53 (1:ℚ) from rfl,
      getD_replicate_of_lt 168 _ 1 (hourOfWeek_lt 2025 h),
      getD_replicate_of_lt 53 _ 1 (lt_of_le_of_lt (weekIndex_le h) (by norm_num))]
  rw [Finset.sum_congr rfl hterm, Finset.sum_const, Finset.card_range, hoursInYear_2025,
    nsmul_eq_mul]
  norm_num

/- ================================================================
   C1: conservation of the annual total under temporal disaggregation.
   ================================================================ -/

/-- C1 (counterexample): the claim quantifies over EVERY non-negative
168-element weekly shape and 53-element seasonal shape with positive sums and
every year, but for the Sunday-00:00 indicator weekly shape and the week-52
indicator seasonal shape in 2022 (whose last week-index block is a single
Saturday), every combined weight is 0, the renormalizing division is by zero,
and the hourly series sums to 0, not to the annual total 1. -/
theorem conservation_counterexample :
    wkSundayHour0.length = 168 ∧ (∀ x ∈ wkSundayHour0, 0 ≤ x) ∧ 0 < wkSundayHour0.sum
    ∧ seasLastWeekOnly.length = 53 ∧ (∀ x ∈ seasLastWeekOnly, 0 ≤ x)
    ∧ 0 < seasLastWeekOnly.sum
    ∧ (disaggregate_annual_to_hourly 1 wkSundayHour0 seasLastWeekOnly 2022).sum ≠ 1 := by
  refine ⟨by rfl, ?_, by rw [wkSundayHour0_sum]; norm_num,
    by rfl, ?_, by rw [seasLastWeekOnly_sum]; norm_num, ?_⟩
  · intro x hx
    rcases List.mem_cons.mp hx with h1 | h1
    · rw [h1]; norm_num
    · rw [(List.eq_of_mem_replicate h1 : x = 0)]
  · intro x hx
    rcases List.mem_append.mp hx with h1 | h1
    · rw [(List.eq_of_mem_replicate h1 : x = 0)]
    · rw [(List.mem_singleton.mp h1 : x = 1)]; norm_num
  · have hz : (disaggregate_annual_to_hourly 1 wkSundayHour0 seasLastWeekOnly 2022).sum = 0 := by
      unfold disaggregate_annual_to_hourly
      rw [listSum_map_range]
      refine Finset.sum_eq_zero fun h hh => ?_
      unfold hourlyValue
      rw [combinedShape_c1cex h (by
        have := Finset.mem_range.mp hh
        rwa [hoursInYear_2022] at this)]
      ring
    rw [hz]
    norm_num

/-- C1 (amended): for every annual total, every non-negative 168-element weekly
shape and 53-element seasonal shape with positive sums, and every year, IF in
addition the combined weight total of that year is non-zero (the two shapes are
not supported on disjoint parts of the calendar), then the hourly series
returned by disaggregate_annual_to_hourly sums exactly to the annual total. -/
theorem conservation_amended (annualTotal : ℚ) (wk seas : List ℚ) (y : ℕ)
    (hwLen : wk.length = 168) (hwNN : ∀ x ∈ wk, 0 ≤ x) (hwPos : 0 < wk.sum)
    (hsLen : seas.length = 53) (hsNN : ∀ x ∈ seas, 0 ≤ x) (hsPos : 0 < seas.sum)
    (hS : combinedShapeSum wk seas y ≠ 0) :
    (disaggregate_annual_to_hourly annualTotal wk seas y).sum = annualTotal :=
  disaggregate_sum_eq annualTotal wk seas y hS

/-- C1 (witness): the amended theorem applies to the uniform shapes in 2025 and
annual total 5. -/
theorem conservation_amended_witness :
    combinedShapeSum wkUniform168 seasUniform53 2025 ≠ 0
    ∧ (disaggregate_annual_to_hourly 5 wkUniform168 seasUniform53 2025).sum = 5 := by
  have hS : combinedShapeSum wkUniform168 seasUniform53 2025 ≠ 0 := by
    rw [combinedShapeSum_uniform]; norm_num
  refine ⟨hS, conservation_amended 5 wkUniform168 seasUniform53 2025
    (by rfl) ?_ (by rw [wkUniform168_sum]; norm_num)
    (by rfl) ?_ (by rw [seasUniform53_sum]; norm_num) hS⟩
  · intro x hx
    rw [(List.eq_of_mem_replicate hx : x = 1)]
    norm_num
  · intro x hx
    rw [(List.eq_of_mem_replicate hx : x = 1)]
    norm_num

/- ================================================================
   C3: calendar alignment of the weekly shape.
   ================================================================ -/

/-- C3: the weekly-shape index is aligned to the real calendar: for every year
and hour, index 0 is hit exactly at pandas weekday 6 (Sunday) hour 0; and in
2025, a year that starts on a Wednesday (jan1Weekday 2025 = 2), disaggregating
any annual total with the Sunday-00:00 indicator weekly shape (uniform
seasonal shape) puts value 0 on every hour that is not a Sunday 00:00 and the
full annual total on the Sunday-00:00 hours. -/
theorem calendar_alignment_sunday (annualTotal : ℚ) :
    jan1Weekday 2025 = 2
    ∧ (∀ y h : ℕ, hourOfWeek y h = 0 ↔ (hourWeekday y h = 6 ∧ h % 24 = 0))
    ∧ (∀ h : ℕ, hourOfWeek 2025 h ≠ 0 →
        hourlyValue annualTotal wkSundayHour0 seasUniform53 2025 h = 0)
    ∧ ∑ h ∈ (Finset.range (hoursInYear 2025)).filter (fun h => hourOfWeek 2025 h = 0),
        hourlyValue annualTotal wkSundayHour0 seasUniform53 2025 h = annualTotal := by
  refine ⟨jan1Weekday_2025, ?_, ?_, ?_⟩
  · intro y h
    unfold hourOfWeek sundayStartWeekday hourWeekday
    have h7 : (jan1Weekday y + h / 24) % 7 < 7 := Nat.mod_lt _ (by norm_num)
    omega
  · intro h hne
    unfold hourlyValue
    rw [combinedShape_sundayInd, if_neg hne]
    ring
  · have hS : combinedShapeSum wkSundayHour0 seasUniform53 2025 ≠ 0 := by
      rw [combinedShapeSum_sundayInd]; norm_num
    have htot := disaggregate_sum_eq annualTotal wkSundayHour0 seasUniform53 2025 hS
    unfold disaggregate_annual_to_hourly at htot
    rw [listSum_map_range, ← Finset.sum_filter_add_sum_filter_not
      (Finset.range (hoursInYear 2025)) (fun h => hourOfWeek 2025 h = 0)] at htot
    have hz : ∑ h ∈ (Finset.range (hoursInYear 2025)).filter
        (fun h => ¬hourOfWeek 2025 h = 0),
          hourlyValue annualTotal wkSundayHour0 seasUniform53 2025 h = 0 := by
      refine Finset.sum_eq_zero fun h hh => ?_
      have hne : ¬hourOfWeek 2025 h = 0 := (Finset.mem_filter.mp hh).2
      unfold hourlyValue
      rw [combinedShape_sundayInd, if_neg hne]
      ring
    rw [hz, add_zero] at htot
    exact htot

/-- C3 (witness): the alignment theorem applied at annual total 7 and hour 1
of 2025 (a Wednesday 01:00, so not a Sunday midnight): the hour receives 0. -/
theorem calendar_alignment_sunday_witness :
    hourOfWeek 2025 1 ≠ 0
    ∧ hourlyValue 7 wkSundayHour0 seasUniform53 2025 1 = 0 := by
  have hne : hourOfWeek 2025 1 ≠ 0 := by decide
  exact ⟨hne, (calendar_alignment_sunday 7).2.2.1 1 hne⟩

/- ================================================================
   C8: bounds of the seasonal index.
   ================================================================ -/

/-- C8: the week index is always at most 52, so a 53-element seasonal shape is
indexed safely; but the industry pipeline (build_industry_profile.py line 78)
passes np.full(12, 1), and already at hour 2016 of 2025 (day 84) the computed
index is 12, outside the bounds of the 12-element array: the lookup has no
value (numpy raises IndexError). -/
theorem seasonal_index_out_of_bounds_for_12 :
    (∀ h : ℕ, weekIndex h ≤ 52)
    ∧ (List.replicate 12 (1:ℚ)).length = 12
    ∧ 2016 < hoursInYear 2025
    ∧ weekIndex 2016 = 12
    ∧ (List.replicate 12 (1:ℚ))[weekIndex 2016]? = none := by
  refine ⟨fun h => Nat.min_le_right _ _, by simp, by decide, by decide, ?_⟩
  rw [show weekIndex 2016 = 12 from by decide]
  simp [List.getElem?_replicate]

/- ================================================================
   C2: proportional redistribution conserves the coarse total.
   ================================================================ -/

theorem sum_map_div_mul {α : Type} (l : List α) (f : α → ℚ) (s t : ℚ) :
    ((l.map (fun x => f x / s * t)).sum) = (l.map f).sum / s * t := by
  induction l with
  | nil => simp
  | cons a as ih =>
    simp only [List.map_cons, List.sum_cons, ih]
    ring

theorem sum_map_mul_div {α : Type} (l : List α) (f : α → ℚ) (a t : ℚ) :
    ((l.map (fun x => a * f x / t)).sum) = a * (l.map f).sum / t := by
  induction l with
  | nil => simp
  | cons x xs ih =>
    simp only [List.map_cons, List.sum_cons, ih]
    ring

/-- C2: in disaggregate_by_load_zone each fine row receives
row_VMT / state_VMT * state_demand; when the state VMT total equals the sum of
the row weights and is non-zero, the allocations sum exactly to the state
demand, and a zero-VMT row receives exactly 0 with no division by zero (the
divisor is the non-zero state total).  In build_hydrogen_demand_grid the
divisor IS the sum of the cell weights, so when it is non-zero the cell
demands sum exactly to the WECC total and a zero-VMT cell receives exactly 0.
Stated for the LD column of both modes and the HD column of the grid; the
other columns are the same formulas. -/
theorem proportional_allocation_conserves
    (rows : List VmtRow) (stateLdVMT stateLdH2 : ℚ)
    (grid : List GridCell) (weccLdH2 weccHdH2 : ℚ)
    (hEq : stateLdVMT = (rows.map (fun r => r.ldVMT)).sum) (hNe : stateLdVMT ≠ 0)
    (hgl : gridLdTotal grid ≠ 0) (hgh : gridHdTotal grid ≠ 0) :
    ((rows.map (ldAllocation stateLdVMT stateLdH2)).sum = stateLdH2
      ∧ (∀ r ∈ rows, ldAllocation stateLdVMT stateLdH2 r
          = r.ldVMT / (rows.map (fun r' => r'.ldVMT)).sum * stateLdH2)
      ∧ (∀ r ∈ rows, r.ldVMT = 0 → ldAllocation stateLdVMT stateLdH2 r = 0))
    ∧ (((build_hydrogen_demand_grid weccLdH2 weccHdH2 grid).map Prod.fst).sum = weccLdH2
      ∧ ((build_hydrogen_demand_grid weccLdH2 weccHdH2 grid).map Prod.snd).sum = weccHdH2
      ∧ ∀ c ∈ grid, (c.ldVMT = 0 → weccLdH2 * c.ldVMT / gridLdTotal grid = 0)
          ∧ (c.hdVMT = 0 → weccHdH2 * c.hdVMT / gridHdTotal grid = 0)) := by
  refine ⟨⟨?_, ?_, ?_⟩, ?_, ?_, ?_⟩
  · unfold ldAllocation
    rw [sum_map_div_mul rows (fun r => r.ldVMT) stateLdVMT stateLdH2, ← hEq,
      div_self hNe, one_mul]
  · intro r _
    unfold ldAllocation
    rw [← hEq]
  · intro r _ h0
    unfold ldAllocation
    rw [h0, zero_div, zero_mul]
  · unfold build_hydrogen_demand_grid
    rw [List.map_map, show (Prod.fst ∘ fun c : GridCell =>
        (weccLdH2 * c.ldVMT / gridLdTotal grid, weccHdH2 * c.hdVMT / gridHdTotal grid))
      = fun c : GridCell => weccLdH2 * c.ldVMT / gridLdTotal grid from rfl,
      sum_map_mul_div grid (fun c => c.ldVMT) weccLdH2 (gridLdTotal grid),
      show (grid.map (fun c => c.ldVMT)).sum = gridLdTotal grid from rfl,
      mul_div_assoc, div_self hgl, mul_one]
  · unfold build_hydrogen_demand_grid
    rw [List.map_map, show (Prod.snd ∘ fun c : GridCell =>
        (weccLdH2 * c.ldVMT / gridLdTotal grid, weccHdH2 * c.hdVMT / gridHdTotal grid))
      = fun c : GridCell => weccHdH2 * c.hdVMT / gridHdTotal grid from rfl,
      sum_map_mul_div grid (fun c => c.hdVMT) weccHdH2 (gridHdTotal grid),
      show (grid.map (fun c => c.hdVMT)).sum = gridHdTotal grid from rfl,
      mul_div_assoc, div_self hgh, mul_one]
  · intro c _
    constructor
    · intro h0; rw [h0, mul_zero, zero_div]
    · intro h0; rw [h0, mul_zero, zero_div]

/-- Example VMT rows: weights 2, 0, 3 summing to the state total 5. -/
def vmtRowsEx : List VmtRow :=
  [{ zone := zoneXStr, hdVMT := 1, ldVMT := 2 },
   { zone := zoneYStr, hdVMT := 0, ldVMT := 0 },
   { zone := zoneXStr, hdVMT := 4, ldVMT := 3 }]

/-- Example grid: LD weights 1 and 3, HD weights 0 and 2. -/
def gridEx : List GridCell :=
  [{ ldVMT := 1, hdVMT := 0 }, { ldVMT := 3, hdVMT := 2 }]

/-- C2 (witness): the conservation theorem applied to the concrete rows and
grid above, with state demand 10 and WECC demands 7 and 9. -/
theorem proportional_allocation_witness :
    (vmtRowsEx.map (ldAllocation 5 10)).sum = 10
    ∧ ((build_hydrogen_demand_grid 7 9 gridEx).map Prod.fst).sum = 7
    ∧ ((build_hydrogen_demand_grid 7 9 gridEx).map Prod.snd).sum = 9 := by
  have h := proportional_allocation_conserves vmtRowsEx 5 10 gridEx 7 9
    (by simp only [vmtRowsEx, List.map_cons, List.map_nil, List.sum_cons, List.sum_nil]
        norm_num)
    (by norm_num)
    (by simp only [gridLdTotal, gridEx, List.map_cons, List.map_nil, List.sum_cons,
          List.sum_nil]
        norm_num)
    (by simp only [gridHdTotal, gridEx, List.map_cons, List.map_nil, List.sum_cons,
          List.sum_nil]
        norm_num)
  exact ⟨h.1.1, h.2.1, h.2.2.1⟩

/- ================================================================
   C10: both fuels are narrowed by the gasoline on-road share.
   ================================================================ -/

/-- The per-state computation never reads the dieselOnroad field. -/
theorem stateH2Demand_dieselOnroad_irrelevant (p : TransportParams)
    (q a b c d : ℚ) :
    stateH2Demand { p with dieselOnroad := q } a b c d = stateH2Demand p a b c d := rfl

/-- Closed form of the hd component of the per-state computation: the on-road
share that enters is the gasolineOnroad field. -/
theorem stateH2Demand_snd (p : TransportParams) (a b c d : ℚ) :
    (stateH2Demand p a b c d).2
      = d * 1000 * 42 * p.gasolineOnroad * (1 + p.relChangeHD) * b
          * DIESEL_TO_H2 / p.hdEfficiency := by
  simp only [stateH2Demand]

/-- C10: in the per-state transport computation, the diesel pathway is
multiplied by GASOLINE_FROM_ONROAD_TRANSPORT (0.9899), not by the
DIESEL_FROM_ONROAD_TRANSPORT constant (0.8658) that get_transport_parameters
returns: the hd component is exactly the formula with the gasoline share, and
the result is invariant under replacing the diesel share by anything. -/
theorem diesel_uses_gasoline_onroad_share (year : ℕ)
    (ldPen hdPen gasKB dieselKB : ℚ) :
    (get_transport_parameters year).dieselOnroad = DIESEL_FROM_ONROAD_TRANSPORT
    ∧ (get_transport_parameters year).gasolineOnroad = GASOLINE_FROM_ONROAD_TRANSPORT
    ∧ DIESEL_FROM_ONROAD_TRANSPORT = 8658 / 10000
    ∧ GASOLINE_FROM_ONROAD_TRANSPORT = 9899 / 10000
    ∧ (stateH2Demand (get_transport_parameters year) ldPen hdPen gasKB dieselKB).2
        = dieselKB * 1000 * 42 * GASOLINE_FROM_ONROAD_TRANSPORT
            * (1 + (get_transport_parameters year).relChangeHD) * hdPen
            * DIESEL_TO_H2 / (get_transport_parameters year).hdEfficiency
    ∧ (∀ q : ℚ,
        stateH2Demand { get_transport_parameters year with dieselOnroad := q }
            ldPen hdPen gasKB dieselKB
          = stateH2Demand (get_transport_parameters year) ldPen hdPen gasKB dieselKB) := by
  refine ⟨rfl, rfl, by norm_num [DIESEL_FROM_ONROAD_TRANSPORT],
    by norm_num [GASOLINE_FROM_ONROAD_TRANSPORT], ?_,
    fun q => stateH2Demand_dieselOnroad_irrelevant (get_transport_parameters year)
      q ldPen hdPen gasKB dieselKB⟩
  rw [stateH2Demand_snd]
  rfl

/- ================================================================
   C5: join policy of combine_profiles and combine_demand_grids.
   ================================================================ -/

theorem lookup_map_keyed {β : Type} (l : List ℕ) (f : ℕ → β) (z : ℕ) :
    (l.map (fun k => (k, f k))).lookup z = if z ∈ l then some (f z) else none := by
  induction l with
  | nil => simp
  | cons a as ih =>
    by_cases hz : z = a
    · subst hz
      simp [List.lookup]
    · have hb : (z == a) = false := beq_eq_false_iff_ne.mpr hz
      simp [List.lookup, hb, ih, List.mem_cons, hz]

/-- Lookup in the output of combine_profiles: the output is keyed by the
transport zones; a transport zone gets its transport value plus the industry
value when one exists; a zone with no transport file is absent. -/
theorem combine_profiles_lookup (tr ind : List (String × ℚ)) (z : String) :
    (combine_profiles tr ind).lookup z
      = (tr.lookup z).map (fun t => t + ((ind.lookup z).getD 0)) := by
  induction tr with
  | nil => simp [combine_profiles]
  | cons p ps ih =>
    unfold combine_profiles at ih ⊢
    by_cases hz : z = p.1
    · subst hz
      cases hind : ind.lookup p.1 <;>
        simp [List.map_cons, List.lookup, hind]
    · have hb : (z == p.1) = false := beq_eq_false_iff_ne.mpr hz
      cases hind : ind.lookup p.1 <;>
        simp [List.map_cons, List.lookup, hb, hind, ih]

theorem mem_outerKeys (ind tr : List (ℕ × ℚ)) (k : ℕ) :
    k ∈ outerKeys ind tr ↔ (k ∈ ind.map Prod.fst ∨ k ∈ tr.map Prod.fst) := by
  unfold outerKeys
  simp only [List.mem_append, List.mem_filter, Bool.not_eq_eq_eq_not, Bool.not_true]
  constructor
  · rintro (h | ⟨h, _⟩)
    · exact Or.inl h
    · exact Or.inr h
  · rintro (h | h)
    · exact Or.inl h
    · by_cases hi : k ∈ ind.map Prod.fst
      · exact Or.inl hi
      · refine Or.inr ⟨h, ?_⟩
        rw [Bool.eq_false_iff]
        intro hc
        exact hi (List.elem_iff.mp hc)

/-- Lookup in the output of combine_demand_grids: every geometry key of either
grid is present (outer join), and its combined value is the NaN-propagating
sum of the two sides. -/
theorem combine_demand_grids_lookup (ind tr : List (ℕ × ℚ)) (k : ℕ) :
    (combine_demand_grids ind tr).lookup k
      = if k ∈ ind.map Prod.fst ∨ k ∈ tr.map Prod.fst
        then some (nanAdd (ind.lookup k) (tr.lookup k)) else none := by
  unfold combine_demand_grids
  rw [lookup_map_keyed (outerKeys ind tr) (fun k => nanAdd (ind.lookup k) (tr.lookup k)) k]
  by_cases hk : k ∈ outerKeys ind tr
  · rw [if_pos hk, if_pos ((mem_outerKeys ind tr k).mp hk)]
  · rw [if_neg hk, if_neg (fun hc => hk ((mem_outerKeys ind tr k).mpr hc))]

/-- C5 (counterexample): combining sector outputs {ZoneX: 10} (transport) and
{ZoneY: 5} (industry) is claimed to yield both zones, but combine_profiles
drops ZoneY entirely (it only walks the transport files); and in
combine_demand_grids a cell present in only one grid (here both cells) gets
the NaN total some none, not the present sector value. -/
theorem outer_join_counterexample :
    (combine_profiles [(zoneXStr, 10)] [(zoneYStr, 5)]).lookup zoneYStr = none
    ∧ (combine_profiles [(zoneXStr, 10)] [(zoneYStr, 5)]).lookup zoneXStr = some 10
    ∧ (combine_demand_grids [(0, 10)] [(1, 5)]).lookup 0 = some none
    ∧ (combine_demand_grids [(0, 10)] [(1, 5)]).lookup 1 = some none := by
  refine ⟨rfl, rfl, rfl, rfl⟩

/-- C5 (amended): combine_profiles is a LEFT join on the transport zone set: a
zone present in transport appears with the industry contribution treated as
zero when absent, but a zone present only in industry is dropped, not kept.
combine_demand_grids does perform an outer join on the geometry key, but a
cell present in only one grid receives a missing (NaN) combined total, not the
present sector value treated with a zero for the other side. -/
theorem combine_join_policy (tr ind : List (String × ℚ)) (gi gt : List (ℕ × ℚ)) :
    (∀ z : String, (combine_profiles tr ind).lookup z
        = (tr.lookup z).map (fun t => t + ((ind.lookup z).getD 0)))
    ∧ (∀ k : ℕ, (combine_demand_grids gi gt).lookup k
        = if k ∈ gi.map Prod.fst ∨ k ∈ gt.map Prod.fst
          then some (nanAdd (gi.lookup k) (gt.lookup k)) else none)
    ∧ (∀ a b : ℚ, nanAdd (some a) (some b) = some (a + b))
    ∧ (∀ o : Option ℚ, nanAdd o none = none ∧ nanAdd none o = none) :=
  ⟨fun z => combine_profiles_lookup tr ind z,
   fun k => combine_demand_grids_lookup gi gt k,
   fun _ _ => rfl,
   fun o => ⟨by cases o <;> rfl, rfl⟩⟩

/- ================================================================
   C4 and C9: discrepancy correction.
   ================================================================ -/

theorem pyInt_eq_floor (q : ℚ) (h : 0 ≤ q) : pyInt q = ⌊q⌋ := by
  unfold pyInt
  rw [Rat.floor_def]
  exact Int.tdiv_eq_ediv (Rat.num_nonneg.mpr h) (Int.natCast_nonneg _)

theorem pyInt_le (q : ℚ) (h : 0 ≤ q) : (pyInt q : ℚ) ≤ q := by
  rw [pyInt_eq_floor q h]
  exact Int.floor_le q

theorem pyInt_nonneg (q : ℚ) (h : 0 ≤ q) : (0:ℚ) ≤ (pyInt q : ℚ) := by
  rw [pyInt_eq_floor q h]
  exact_mod_cast Int.floor_nonneg.mpr h

theorem sum_map_sub {α : Type} (l : List α) (f g : α → ℚ) :
    ((l.map (fun x => f x - g x)).sum) = (l.map f).sum - (l.map g).sum := by
  induction l with
  | nil => simp
  | cons a as ih =>
    simp only [List.map_cons, List.sum_cons, ih]
    ring

/-- The sector discrepancy is the truncated MECS total minus the GHGRP total. -/
theorem sectorDiscrepancy_eq (es : List NaicsEntry) :
    sectorDiscrepancy es
      = (es.map (fun e => (pyInt (e.mecsRaw * 1000000) : ℚ))).sum - sectorGhgrp es := by
  unfold sectorDiscrepancy naicsDiscrepancy sectorGhgrp
  rw [← sum_map_sub]

theorem truncatedMecs_nonneg (es : List NaicsEntry)
    (hm : ∀ e ∈ es, 0 ≤ e.mecsRaw) :
    0 ≤ (es.map (fun e => (pyInt (e.mecsRaw * 1000000) : ℚ))).sum := by
  refine List.sum_nonneg ?_
  intro x hx
  obtain ⟨e, he, rfl⟩ := List.mem_map.mp hx
  exact pyInt_nonneg _ (by have := hm e he; positivity)

theorem truncatedMecs_le (es : List NaicsEntry)
    (hm : ∀ e ∈ es, 0 ≤ e.mecsRaw) :
    (es.map (fun e => (pyInt (e.mecsRaw * 1000000) : ℚ))).sum ≤ sectorMecs es := by
  unfold sectorMecs
  refine List.sum_le_sum ?_
  intro e he
  exact pyInt_le _ (by have := hm e he; positivity)

theorem overEntry_disc : sectorDiscrepancy [overEntry] = -(1/2) := by
  unfold sectorDiscrepancy naicsDiscrepancy overEntry
  have h8 : (8007:ℚ) / 10000000 * 1000000 = 8007 / 10 := by norm_num
  rw [List.map_cons, List.map_nil, List.sum_cons, List.sum_nil]
  simp only [h8]
  rw [pyInt_eq_floor _ (by norm_num), show ⌊(8007:ℚ)/10⌋ = 800 from by norm_num]
  norm_num

theorem underEntry_disc : sectorDiscrepancy [underEntry] = 300 := by
  unfold sectorDiscrepancy naicsDiscrepancy underEntry
  have h8 : (8:ℚ) / 10000 * 1000000 = 800 := by norm_num
  rw [List.map_cons, List.map_nil, List.sum_cons, List.sum_nil]
  simp only [h8]
  rw [pyInt_eq_floor _ (by norm_num), show ⌊(800:ℚ)⌋ = 800 from by norm_num]
  norm_num

/-- C4 (counterexample): with top-down total 800.7 mmBtu and bottom-up total
800.5 mmBtu, the bottom-up total is strictly BELOW the top-down total, so the
claim requires synthetic records summing to the shortfall; but because the
discrepancy is computed as int(800.7) - 800.5 = -0.5 < 0, the code instead
scales the existing records up by 800.7/800.5 and injects nothing. -/
theorem discrepancy_direction_counterexample :
    sectorGhgrp [overEntry] < sectorMecs [overEntry]
    ∧ (applyDiscrepancyCorrection [overEntry] [1000] 3).2 = []
    ∧ (applyDiscrepancyCorrection [overEntry] [1000] 3).1
        = [1000 * (sectorMecs [overEntry] / sectorGhgrp [overEntry])]
    ∧ (applyDiscrepancyCorrection [overEntry] [1000] 3).1 ≠ [1000] := by
  have hneg : sectorDiscrepancy [overEntry] < 0 := by rw [overEntry_disc]; norm_num
  have hg : sectorGhgrp [overEntry] = 8005 / 10 := by
    unfold sectorGhgrp overEntry
    simp
  have hmm : sectorMecs [overEntry] = 8007 / 10 := by
    unfold sectorMecs overEntry
    simp
    norm_num
  refine ⟨by rw [hg, hmm]; norm_num, ?_, ?_, ?_⟩
  · unfold applyDiscrepancyCorrection
    rw [if_pos hneg]
  · unfold applyDiscrepancyCorrection sectorCorrectionFactor
    rw [if_pos hneg]
    simp
  · unfold applyDiscrepancyCorrection sectorCorrectionFactor
    rw [if_pos hneg]
    rw [hg, hmm]
    simp only [List.map_cons, List.map_nil]
    intro hc
    have := List.head_eq_of_cons_eq hc
    norm_num at this

/-- C4 (amended): the branch is keyed on the sign of the sector discrepancy
computed with the per-NAICS int() truncation of the MECS total.  When that
discrepancy is negative, every facility record of the sector is multiplied by
exactly the single scalar sector ratio top-down / bottom-up (untruncated) and
nothing is injected; when it is positive and the extra-facility list has
nExtra entries, the records are untouched and the injected records are all
equal to discrepancy / nExtra and sum exactly to the truncated discrepancy
(which differs from top-down minus bottom-up by less than 1 mmBtu per NAICS
code). -/
theorem discrepancy_correction_directionality (es : List NaicsEntry)
    (records : List ℚ) (nExtra : ℕ) :
    (sectorDiscrepancy es < 0 →
      applyDiscrepancyCorrection es records nExtra
        = (records.map (fun r => r * (sectorMecs es / sectorGhgrp es)), []))
    ∧ (0 < sectorDiscrepancy es → nExtra ≠ 0 →
      (applyDiscrepancyCorrection es records nExtra).1 = records
      ∧ (applyDiscrepancyCorrection es records nExtra).2
          = List.replicate nExtra (sectorDiscrepancy es / (nExtra : ℚ))
      ∧ ((applyDiscrepancyCorrection es records nExtra).2).sum = sectorDiscrepancy es) := by
  constructor
  · intro hneg
    unfold applyDiscrepancyCorrection sectorCorrectionFactor
    rw [if_pos hneg]
  · intro hpos hn
    unfold applyDiscrepancyCorrection
    rw [if_neg (not_lt.mpr (le_of_lt hpos)), if_pos hpos]
    refine ⟨rfl, rfl, ?_⟩
    rw [List.sum_replicate, nsmul_eq_mul]
    have hq : (nExtra : ℚ) ≠ 0 := Nat.cast_ne_zero.mpr hn
    rw [mul_comm, div_mul_cancel₀ _ hq]

/-- C4 (witness): both branches of the directionality theorem at concrete
inputs: the 800.7 versus 800.5 sector is scaled, and the 800 versus 500 sector
injects three records of 100 each summing to the 300 shortfall. -/
theorem discrepancy_correction_witness :
    sectorDiscrepancy [overEntry] < 0
    ∧ applyDiscrepancyCorrection [overEntry] [1000] 3
        = ([1000 * (sectorMecs [overEntry] / sectorGhgrp [overEntry])], [])
    ∧ 0 < sectorDiscrepancy [underEntry]
    ∧ (applyDiscrepancyCorrection [underEntry] [1000] 3).1 = [1000]
    ∧ (applyDiscrepancyCorrection [underEntry] [1000] 3).2 = [100, 100, 100]
    ∧ ((applyDiscrepancyCorrection [underEntry] [1000] 3).2).sum
        = sectorDiscrepancy [underEntry] := by
  have hneg : sectorDiscrepancy [overEntry] < 0 := by rw [overEntry_disc]; norm_num
  have hpos : (0:ℚ) < sectorDiscrepancy [underEntry] := by rw [underEntry_disc]; norm_num
  have h1 := (discrepancy_correction_directionality [overEntry] [1000] 3).1 hneg
  have h2 := (discrepancy_correction_directionality [underEntry] [1000] 3).2 hpos
    (by norm_num)
  refine ⟨hneg, ?_, hpos, h2.1, ?_, h2.2.2⟩
  · rw [h1]
    simp
  · rw [h2.2.1, underEntry_disc]
    norm_num
    rfl

/-- C9: with non-negative MECS inputs, whenever the scaling branch runs the
bottom-up total is non-zero, so the multiplied ratio is the finite rational
top-down / bottom-up and never the infinite per-NAICS audit value; and for a
sector whose bottom-up total is zero or equal to the top-down total, the
facility records come out unchanged (no multiplicative correction is applied,
or the applied scalar is exactly 1). -/
theorem no_infinite_correction (es : List NaicsEntry) (records : List ℚ)
    (nExtra : ℕ) (hm : ∀ e ∈ es, 0 ≤ e.mecsRaw) :
    (sectorDiscrepancy es < 0 → sectorGhgrp es ≠ 0)
    ∧ (sectorGhgrp es = 0 →
        (applyDiscrepancyCorrection es records nExtra).1 = records)
    ∧ (sectorGhgrp es = sectorMecs es →
        (applyDiscrepancyCorrection es records nExtra).1 = records) := by
  have hP := truncatedMecs_nonneg es hm
  refine ⟨?_, ?_, ?_⟩
  · intro hneg
    rw [sectorDiscrepancy_eq] at hneg
    intro h0
    rw [h0] at hneg
    linarith
  · intro h0
    have hnn : ¬sectorDiscrepancy es < 0 := by
      rw [sectorDiscrepancy_eq, h0]
      linarith
    unfold applyDiscrepancyCorrection
    rw [if_neg hnn]
    by_cases hp : 0 < sectorDiscrepancy es
    · rw [if_pos hp]
    · rw [if_neg hp]
  · intro hEq
    have hle : sectorDiscrepancy es ≤ 0 := by
      rw [sectorDiscrepancy_eq, hEq]
      have := truncatedMecs_le es hm
      linarith
    rcases lt_or_eq_of_le hle with hlt | hzero
    · have hgne : sectorGhgrp es ≠ 0 := by
        rw [sectorDiscrepancy_eq] at hlt
        intro h0
        rw [h0] at hlt
        linarith
      unfold applyDiscrepancyCorrection
      rw [if_pos hlt]
      have hone : sectorCorrectionFactor es = 1 := by
        unfold sectorCorrectionFactor
        rw [← hEq]
        exact div_self hgne
      rw [hone]
      simp
    · unfold applyDiscrepancyCorrection
      rw [if_neg (by rw [← hzero]; exact lt_irrefl _),
        if_neg (by rw [← hzero]; exact lt_irrefl _)]

/-- C9 (witness): the theorem applied to a sector with bottom-up total 0 and to
a sector whose totals agree. -/
theorem no_infinite_correction_witness :
    sectorGhgrp [zeroGhgrpEntry] = 0
    ∧ (applyDiscrepancyCorrection [zeroGhgrpEntry] [7] 2).1 = [7] := by
  have hg : sectorGhgrp [zeroGhgrpEntry] = 0 := by
    unfold sectorGhgrp zeroGhgrpEntry
    simp
  have h := no_infinite_correction [zeroGhgrpEntry] [7] 2 ?_
  · exact ⟨hg, h.2.1 hg⟩
  · intro e he
    rw [List.mem_singleton.mp he]
    norm_num [zeroGhgrpEntry]

/- ================================================================
   C6 and C7: the per-unit fuel loop.
   ================================================================ -/

/-- Invariant of the fuel loop started with consumes_biofuels = false: on
success the flag is still false (the biofuel branch resets it to false), the
unit fuel list is extended by exactly the fuels that have a non-biofuel
category (including fuels with no emissions factor, which are appended before
the failing lookup), and the factor total grows by the sum of the found
factors. -/
theorem collectUnitFuels_false (aeoCat : String → Option String)
    (ef : String → Option ℚ) :
    ∀ (fuels : List String) (ufs : List String) (tot : ℚ)
      (res : Bool × List String × ℚ),
      collectUnitFuels aeoCat ef fuels (false, ufs, tot) = some res →
      res = (false, ufs ++ fuels.filter (keptFuel aeoCat),
        tot + ((fuels.filter (keptFuel aeoCat)).map (fun f => (ef f).getD 0)).sum) := by
  intro fuels
  induction fuels with
  | nil =>
    intro ufs tot res h
    simp only [collectUnitFuels, Option.some.injEq] at h
    simp [← h]
  | cons f rest ih =>
    intro ufs tot res h
    unfold collectUnitFuels at h
    cases hc : aeoCat f with
    | none =>
      rw [hc] at h
      dsimp only at h
      exact absurd h (by simp)
    | some cat =>
      rw [hc] at h
      dsimp only at h
      by_cases hb : pyContains biofuelsStr cat
      · rw [if_pos hb] at h
        have hres := ih ufs tot res h
        have hk : keptFuel aeoCat f = false := by
          unfold keptFuel
          rw [hc]
          dsimp only
          rw [hb]
          rfl
        rw [hres]
        simp [List.filter_cons, hk]
      · rw [if_neg hb] at h
        have hk : keptFuel aeoCat f = true := by
          unfold keptFuel
          rw [hc]
          dsimp only
          rw [Bool.eq_false_iff.mpr hb]
          rfl
        cases he : ef f with
        | some e =>
          rw [he] at h
          have hres := ih (ufs ++ [f]) (tot + e) res h
          rw [hres]
          simp [List.filter_cons, hk, he, List.append_assoc, add_assoc]
        | none =>
          rw [he] at h
          have hres := ih (ufs ++ [f]) tot res h
          rw [hres]
          simp [List.filter_cons, hk, he, List.append_assoc]

/-- Evaluation form of processUnit on a successful, non-skipped unit. -/
theorem processUnit_eval (aeoCat : String → Option String) (ef : String → Option ℚ)
    (unitCO2 : ℚ) (fuels ufs : List String) (tot : ℚ)
    (hcol : collectUnitFuels aeoCat ef fuels (false, [], 0) = some (false, ufs, tot))
    (htot : ¬tot = 0) :
    processUnit aeoCat ef unitCO2 fuels
      = some (some (ufs,
          unitCO2 * 1000 / (tot / (ufs.length : ℚ)) / (ufs.length : ℚ))) := by
  unfold processUnit
  rw [hcol]
  dsimp only
  rw [if_neg htot, if_neg Bool.false_ne_true]

/-- C7: whenever the unit loop produces a per-fuel record list and value
(the unit was neither crashed nor skipped), the unit fuel list is exactly the
non-biofuel fuels of the unit in order (biofuels are excluded entirely), and
the per-fuel value is exactly the unit demand, computed from the average of
the found emissions factors over the non-biofuel fuels, divided by the number
of non-biofuel fuels: the exclusion does not corrupt the even-split
denominator, and the dead consumes_biofuels adjustment is never applied. -/
theorem biofuel_exclusion_even_split (aeoCat : String → Option String)
    (ef : String → Option ℚ) (unitCO2 : ℚ) (fuels ufs : List String) (d : ℚ)
    (h : processUnit aeoCat ef unitCO2 fuels = some (some (ufs, d))) :
    ufs = fuels.filter (keptFuel aeoCat)
    ∧ (∀ f ∈ ufs, keptFuel aeoCat f = true)
    ∧ d = unitCO2 * 1000
        / ((ufs.map (fun f => (ef f).getD 0)).sum / (ufs.length : ℚ))
        / (ufs.length : ℚ) := by
  unfold processUnit at h
  cases hcol : collectUnitFuels aeoCat ef fuels (false, [], 0) with
  | none =>
    rw [hcol] at h
    exact absurd h (by simp)
  | some acc =>
    rw [hcol] at h
    have hacc := collectUnitFuels_false aeoCat ef fuels [] 0 acc hcol
    subst hacc
    simp only [List.nil_append, zero_add] at h
    by_cases htot : ((fuels.filter (keptFuel aeoCat)).map (fun f => (ef f).getD 0)).sum = 0
    · rw [if_pos htot] at h
      exact absurd h (by simp)
    · rw [if_neg htot, if_neg Bool.false_ne_true] at h
      simp only [Option.some.injEq, Prod.mk.injEq] at h
      obtain ⟨hufs, hd⟩ := h
      refine ⟨hufs.symm, ?_, ?_⟩
      · intro f hf
        rw [hufs.symm] at hf
        exact (List.mem_filter.mp hf).2
      · rw [← hd, hufs]


/-- C7 (witness): a unit burning wood (a biofuel), natural gas (factor 50) and
diesel (factor 70), with 6 mt of CO2: the wood is excluded, the remaining two
fuels split the unit demand 6 * 1000 / 60 = 100 evenly into 50 each. -/
theorem biofuel_exclusion_witness :
    processUnit aeoCatEx efEx 6 [woodStr, natGasStr, dieselStr]
      = some (some ([natGasStr, dieselStr], 50))
    ∧ [natGasStr, dieselStr] = [woodStr, natGasStr, dieselStr].filter (keptFuel aeoCatEx) := by
  have hcol : collectUnitFuels aeoCatEx efEx [woodStr, natGasStr, dieselStr] (false, [], 0)
      = some (false, [natGasStr, dieselStr], 0 + 50 + 70) := rfl
  have h : processUnit aeoCatEx efEx 6 [woodStr, natGasStr, dieselStr]
      = some (some ([natGasStr, dieselStr], 50)) := by
    rw [processUnit_eval aeoCatEx efEx 6 _ _ _ hcol (by norm_num)]
    norm_num
  exact ⟨h, (biofuel_exclusion_even_split aeoCatEx efEx 6 _ _ _ h).1⟩

/-- C6: a unit with 1 mt of CO2 burning natural gas (factor 50) and a mystery
fuel that has NO emissions-factor entry.  The loop appends the mystery fuel to
unit_fuels BEFORE the failed lookup, so it stays in the fuel list and in the
even-split denominator: the unit emits records for BOTH fuels with the average
factor diluted to 25 (instead of 50 over the single known fuel), each record
receiving 1 * 1000 / 25 / 2 = 20, for a unit total of 40 instead of 20.  The
claimed behaviour, that the unrecognized fuel contributes nothing to the fuel
list, the average factor, or the denominator, does not hold; only the run does
continue with a warning instead of aborting. -/
theorem unknown_fuel_dilutes_unit :
    efEx mysteryStr = none
    ∧ processUnit aeoCatEx efEx 1 [natGasStr, mysteryStr]
        = some (some ([natGasStr, mysteryStr], 20))
    ∧ mysteryStr ∈ [natGasStr, mysteryStr] := by
  have hcol : collectUnitFuels aeoCatEx efEx [natGasStr, mysteryStr] (false, [], 0)
      = some (false, [natGasStr, mysteryStr], 0 + 50) := rfl
  refine ⟨rfl, ?_, by simp⟩
  rw [processUnit_eval aeoCatEx efEx 1 _ _ _ hcol (by norm_num)]
  norm_num

end WeccH2
